import Mathlib

/-!
Verification development for the `plugin-linear` repository: a shallow
embedding of the Linear service's activity ledger (`src/services/linear.ts`),
the service's remote-client operations, and the request-interpretation logic
of the issue actions (`src/actions/getIssue.ts`, `src/actions/createIssue.ts`,
`src/actions/searchIssues.ts`), together with theorems settling the frozen
claims about the natural-language specification.

Strings manipulated character-by-character (regular expressions, Markdown
fence stripping, lower-casing) are embedded as `List Char`; JavaScript's
numbers are embedded as `Nat` where the source only ever holds non-negative
counts; JavaScript truthiness of optional strings is made explicit.
-/

namespace PluginLinear

/-- A JSON-like value, used for the free-form `details` payload of an
activity item (`details: Record<string, any>` in `src/types.ts`). -/
inductive JsonVal where
  | str (s : String)
  | num (n : Int)
  | bool (b : Bool)
  | null
  deriving DecidableEq, Repr

/-- Key/value payload of an activity item (`details` field). -/
abbrev Details := List (String × JsonVal)

/-- The fixed enumeration of resource types of an activity item
(`resource_type: 'issue' | 'project' | 'comment' | 'label' | 'user' | 'team'`
in `src/types.ts`). -/
inductive LinearResourceType where
  | issue
  | project
  | comment
  | label
  | user
  | team
  deriving DecidableEq, Repr

/-- One record of the activity ledger, mirroring `LinearActivityItem` in
`src/types.ts`. -/
structure LinearActivityItem where
  id : String
  timestamp : String
  action : String
  resource_type : LinearResourceType
  resource_id : String
  details : Details
  success : Bool
  error : Option String
  deriving DecidableEq, Repr

/-- Environmental inputs of `logActivity`: the process-unique token
(`Date.now()` plus a random suffix) and the ISO timestamp, which the
TypeScript code reads from the clock and RNG. -/
structure ActivityEnv where
  id : String
  timestamp : String
  deriving DecidableEq, Repr

/-- The item constructed by `LinearService.logActivity`
(`src/services/linear.ts`, lines 73-90). -/
def mkActivityItem (env : ActivityEnv) (action : String)
    (resourceType : LinearResourceType) (resourceId : String)
    (details : Details) (success : Bool) (error : Option String) :
    LinearActivityItem :=
  { id := env.id
    timestamp := env.timestamp
    action := action
    resource_type := resourceType
    resource_id := resourceId
    details := details
    success := success
    error := error }

/-- The ledger mutation of `LinearService.logActivity`
(`src/services/linear.ts`, lines 92-97): push the new item, then if the
ledger length exceeds 1000, keep only the last 1000 entries
(`this.activityLog = this.activityLog.slice(-1000)`). -/
def logPush (log : List LinearActivityItem) (a : LinearActivityItem) :
    List LinearActivityItem :=
  let l := log ++ [a]
  if 1000 < l.length then l.drop (l.length - 1000) else l

/-- `LinearService.logActivity` (`src/services/linear.ts`, lines 73-98):
construct the activity item and push it with FIFO trimming. -/
def logActivity (log : List LinearActivityItem) (env : ActivityEnv)
    (action : String) (resourceType : LinearResourceType)
    (resourceId : String) (details : Details) (success : Bool)
    (error : Option String) : List LinearActivityItem :=
  logPush log (mkActivityItem env action resourceType resourceId details success error)

/-- A `Partial<LinearActivityItem>` equality filter, as accepted by
`LinearService.getActivityLog` (`src/services/linear.ts`, line 101). A field
set to `none` is absent from the partial object. -/
structure ActivityFilter where
  id : Option String := none
  timestamp : Option String := none
  action : Option String := none
  resource_type : Option LinearResourceType := none
  resource_id : Option String := none
  details : Option Details := none
  success : Option Bool := none
  error : Option (Option String) := none
  deriving DecidableEq, Repr

/-- The per-item filter predicate of `getActivityLog`
(`src/services/linear.ts`, lines 105-109): every key/value pair present in
the partial filter must equal the item's field. -/
def matchesFilter (f : ActivityFilter) (it : LinearActivityItem) : Bool :=
  (match f.id with | none => true | some v => it.id == v) &&
  (match f.timestamp with | none => true | some v => it.timestamp == v) &&
  (match f.action with | none => true | some v => it.action == v) &&
  (match f.resource_type with | none => true | some v => it.resource_type == v) &&
  (match f.resource_id with | none => true | some v => it.resource_id == v) &&
  (match f.details with | none => true | some v => it.details == v) &&
  (match f.success with | none => true | some v => it.success == v) &&
  (match f.error with | none => true | some v => it.error == v)

/-- `LinearService.getActivityLog(limit?, filter?)`
(`src/services/linear.ts`, lines 101-113): copy the ledger, apply the
equality filter when present, and return `filtered.slice(-(limit || 100))`.
`limit || 100` substitutes the default 100 for any falsy limit (absent or
0); `slice(-k)` is the last `k` entries, i.e. `drop (length - k)`. -/
def getActivityLog (log : List LinearActivityItem) (limit : Option Nat)
    (filter : Option ActivityFilter) : List LinearActivityItem :=
  let filtered := match filter with
    | some f => log.filter (matchesFilter f)
    | none => log
  let k := match limit with
    | none => 100
    | some n => if n = 0 then 100 else n
  filtered.drop (filtered.length - k)

/-- `LinearService.clearActivityLog` (`src/services/linear.ts`,
lines 116-119). -/
def clearActivityLog (_log : List LinearActivityItem) :
    List LinearActivityItem := []

/- ### Ledger lemmas -/

lemma logPush_eq (log : List LinearActivityItem) (a : LinearActivityItem) :
    logPush log a =
      if 1000 < log.length + 1 then (log ++ [a]).drop (log.length + 1 - 1000)
      else log ++ [a] := by
  simp [logPush]

lemma logPush_drop_inv (ys : List LinearActivityItem) (a : LinearActivityItem) :
    logPush (ys.drop (ys.length - 1000)) a
      = (ys ++ [a]).drop ((ys ++ [a]).length - 1000) := by
  rw [logPush_eq]
  rcases Nat.lt_or_ge ys.length 1000 with h | h
  · have hd : ys.length - 1000 = 0 := by omega
    rw [hd, List.drop_zero]
    have hnot : ¬ (1000 < ys.length + 1) := by omega
    rw [if_neg hnot]
    have hd' : (ys ++ [a]).length - 1000 = 0 := by
      simp only [List.length_append, List.length_singleton]; omega
    rw [hd', List.drop_zero]
  · have hlen : (ys.drop (ys.length - 1000)).length = 1000 := by
      rw [List.length_drop]; omega
    rw [hlen, if_pos (by omega)]
    have h1 : 1000 + 1 - 1000 = 1 := by omega
    rw [h1]
    have hle : (1 : ℕ) ≤ (ys.drop (ys.length - 1000)).length := by omega
    rw [List.drop_append_of_le_length hle, List.drop_drop]
    have hle2 : (ys ++ [a]).length - 1000 ≤ ys.length := by
      simp only [List.length_append, List.length_singleton]; omega
    rw [List.drop_append_of_le_length hle2]
    have h2 : ys.length - 1000 + 1 = (ys ++ [a]).length - 1000 := by
      simp only [List.length_append, List.length_singleton]; omega
    rw [h2]

/-- Folding `logPush` from the empty ledger over any insertion sequence
leaves exactly the last 1000 inserted items, in insertion order. -/
lemma foldl_logPush_eq_drop (xs : List LinearActivityItem) :
    List.foldl logPush [] xs = xs.drop (xs.length - 1000) := by
  induction xs using List.reverseRecOn with
  | nil => simp
  | append_singleton ys a ih =>
    rw [List.foldl_append, ih]
    simpa using logPush_drop_inv ys a

/-- **C2.** Recording a sequence of `N` items via `logActivity` starting from
the empty ledger leaves a ledger of length `min N 1000` — exactly `N` when
`N ≤ 1000` and exactly 1000 when `N > 1000` — whose contents are the last
1000 inserted items in their original insertion order (FIFO eviction of the
oldest), expressed as `xs.drop (xs.length - 1000)`. Each `logActivity` call
pushes exactly the item built from its arguments (`logActivity ... =
logPush log (mkActivityItem ...)` by definition), so the fold over pushed
items covers every sequence of `record` calls. -/
theorem ledger_fifo_capacity (xs : List LinearActivityItem) :
    (List.foldl logPush [] xs).length = min xs.length 1000 ∧
    List.foldl logPush [] xs = xs.drop (xs.length - 1000) := by
  refine ⟨?_, foldl_logPush_eq_drop xs⟩
  rw [foldl_logPush_eq_drop, List.length_drop]
  omega

/- ### Query (`getActivityLog`) lemmas -/

/-- A sample ledger entry used for concrete evaluations. -/
def sampleItem : LinearActivityItem :=
  { id := "1700000000000-abc"
    timestamp := "2024-01-01T00:00:00.000Z"
    action := "get_issue"
    resource_type := .issue
    resource_id := "ENG-1"
    details := []
    success := true
    error := none }

/-- **C8 (counterexample).** The claim states that `getActivityLog` with
`limit = k` never returns more than `k` items, for every limit `k`. At
`k = 0` this fails: the source computes `filtered.slice(-(limit || 100))`,
and `0` is falsy, so the default 100 is substituted — on a one-item ledger
the call returns that item, i.e. 1 > 0 items. -/
theorem getActivityLog_limit_zero_counterexample :
    getActivityLog [sampleItem] (some 0) none = [sampleItem] ∧
    ¬ ((getActivityLog [sampleItem] (some 0) none).length ≤ 0) := by
  refine ⟨rfl, by decide⟩

/-- **C8 (amended).** For every ledger state and every *nonzero* limit `k`
(a truthy JavaScript number), `getActivityLog` with `limit = k` returns at
most `k` items; with no filter the result is exactly the last-`k` suffix
`log.drop (log.length - k)` of the insertion sequence, in insertion order
(most recent last); with a filter, the result is the last-`k` suffix of the
sub-sequence of items whose fields equal every key/value pair of the filter,
so every returned item matches the filter. (`limit = 0` is falsy in
JavaScript and is replaced by the default 100; see the counterexample.) -/
theorem getActivityLog_query_bounds (log : List LinearActivityItem) (k : Nat)
    (f : ActivityFilter) (hk : 0 < k) :
    (getActivityLog log (some k) none).length ≤ k ∧
    getActivityLog log (some k) none = log.drop (log.length - k) ∧
    (getActivityLog log (some k) none) <:+ log ∧
    getActivityLog log (some k) (some f)
      = (log.filter (matchesFilter f)).drop
          ((log.filter (matchesFilter f)).length - k) ∧
    (∀ x ∈ getActivityLog log (some k) (some f), matchesFilter f x = true) ∧
    (getActivityLog log (some k) (some f)) <:+ log.filter (matchesFilter f) := by
  have hk0 : ¬ (k = 0) := by omega
  have hnone : getActivityLog log (some k) none = log.drop (log.length - k) := by
    simp only [getActivityLog, if_neg hk0]
  have hsome : getActivityLog log (some k) (some f)
      = (log.filter (matchesFilter f)).drop
          ((log.filter (matchesFilter f)).length - k) := by
    simp only [getActivityLog, if_neg hk0]
  refine ⟨?_, hnone, ?_, hsome, ?_, ?_⟩
  · rw [hnone, List.length_drop]; omega
  · rw [hnone]; exact List.drop_suffix _ _
  · intro x hx
    rw [hsome] at hx
    have := List.mem_of_mem_drop hx
    exact (List.mem_filter.mp this).2
  · rw [hsome]; exact List.drop_suffix _ _

theorem getActivityLog_query_bounds_witness :
    (getActivityLog [sampleItem] (some 1) none).length ≤ 1 :=
  (getActivityLog_query_bounds [sampleItem] 1 {} (by decide)).1

/-- **C10.** `getActivityLog` treats the falsy limit `0` exactly as an
omitted limit: the default 100 is substituted (`limit || 100` in the
source), so `limit = 0` returns up to the 100 most-recent items rather than
zero items. -/
theorem getActivityLog_limit_zero_default (log : List LinearActivityItem)
    (f : Option ActivityFilter) :
    getActivityLog log (some 0) f = getActivityLog log none f ∧
    (getActivityLog log (some 0) f).length ≤ 100 := by
  have h : getActivityLog log (some 0) f = getActivityLog log none f := by
    simp [getActivityLog]
  refine ⟨h, ?_⟩
  rw [h]
  cases f with
  | none => simp only [getActivityLog, List.length_drop]; omega
  | some f => simp only [getActivityLog, List.length_drop]; omega

/- ### Remote client wrapper (`LinearService` operations) -/

/-- A thrown JavaScript value caught at an operation boundary: either an
`Error` carrying a message, or some non-`Error` value. Mirrors
`error instanceof Error ? error.message : 'Unknown error'`. -/
inductive JsError where
  | err (msg : String)
  | nonError
  deriving DecidableEq, Repr

/-- The human-readable message extracted from a caught value
(`error instanceof Error ? error.message : 'Unknown error'`). -/
def errMsg : JsError → String
  | .err m => m
  | .nonError => "Unknown error"

/-- The typed error `LinearAPIError` of `src/types.ts` (an `Error` subclass
carrying a message and an optional HTTP status). -/
structure LinearAPIError where
  message : String
  status : Option Nat := none
  deriving DecidableEq, Repr

/-- A Linear team as used by the plugin (`id`, `key`, `name`). -/
structure Team where
  id : String
  key : String
  name : String
  deriving DecidableEq, Repr

/-- A Linear user as used by the plugin. -/
structure User where
  id : String
  name : String
  email : String
  deriving DecidableEq, Repr

/-- A Linear issue as used by the plugin. `archived` models the remote
workflow flag toggled by archival (the remote API never physically deletes);
`createdAt` is the creation timestamp as a number (epoch milliseconds). -/
structure Issue where
  id : String
  identifier : String
  title : String
  description : Option String := none
  priority : Option Nat := none
  url : String := ""
  createdAt : Nat := 0
  stateName : String := ""
  archived : Bool := false
  deriving DecidableEq, Repr

/-- A Linear project, with its (already resolved) related teams. -/
structure Project where
  id : String
  name : String
  teams : List Team
  deriving DecidableEq, Repr

/-- A Linear workflow state. -/
structure WorkflowState where
  id : String
  name : String
  deriving DecidableEq, Repr

/-- A Linear issue label. -/
structure IssueLabel where
  id : String
  name : String
  deriving DecidableEq, Repr

/-- A Linear comment. -/
structure LinearComment where
  id : String
  body : String
  deriving DecidableEq, Repr

/-- `LinearIssueInput` of `src/types.ts`: the create-issue payload. Optional
fields are `Option`; `dueDate` is modelled as its ISO string. -/
structure LinearIssueInput where
  title : String
  description : Option String := none
  teamId : String
  priority : Option Nat := none
  assigneeId : Option String := none
  labelIds : Option (List String) := none
  projectId : Option String := none
  stateId : Option String := none
  estimate : Option Nat := none
  dueDate : Option String := none
  deriving DecidableEq, Repr

/-- `Partial<LinearIssueInput>` as passed to `updateIssue`. -/
structure LinearIssueUpdate where
  title : Option String := none
  description : Option String := none
  priority : Option Nat := none
  assigneeId : Option String := none
  labelIds : Option (List String) := none
  projectId : Option String := none
  stateId : Option String := none
  estimate : Option Nat := none
  dueDate : Option String := none
  deriving DecidableEq, Repr

/-- `LinearCommentInput` of `src/types.ts`. -/
structure LinearCommentInput where
  body : String
  issueId : String
  deriving DecidableEq, Repr

/-- `LinearSearchFilters` of `src/types.ts`. -/
structure LinearSearchFilters where
  state : Option (List String) := none
  assignee : Option (List String) := none
  label : Option (List String) := none
  project : Option String := none
  team : Option String := none
  priority : Option (List Nat) := none
  query : Option String := none
  limit : Option Nat := none
  deriving DecidableEq, Repr

/-- Marshal an optional string into a detail value. -/
def optStr : Option String → JsonVal
  | none => .null
  | some s => .str s

/-- Marshal an optional number into a detail value. -/
def optNum : Option Nat → JsonVal
  | none => .null
  | some n => .num n

/-- Marshal an optional string list into a (flattened) detail value. -/
def optStrList : Option (List String) → JsonVal
  | none => .null
  | some xs => .str (String.intercalate "," xs)

/-- Marshal an optional number list into a (flattened) detail value. -/
def optNumList : Option (List Nat) → JsonVal
  | none => .null
  | some xs => .str (String.intercalate "," (xs.map toString))

/-- The `details` payload logged for a failed `createIssue` (the whole
input object, flattened into key/value detail pairs). -/
def issueInputDetails (i : LinearIssueInput) : Details :=
  [("title", .str i.title), ("description", optStr i.description),
   ("teamId", .str i.teamId), ("priority", optNum i.priority),
   ("assigneeId", optStr i.assigneeId), ("labelIds", optStrList i.labelIds),
   ("projectId", optStr i.projectId), ("stateId", optStr i.stateId),
   ("estimate", optNum i.estimate), ("dueDate", optStr i.dueDate)]

/-- The `details` payload logged for `updateIssue` (the updates object,
flattened into key/value detail pairs). -/
def issueUpdateDetails (u : LinearIssueUpdate) : Details :=
  [("title", optStr u.title), ("description", optStr u.description),
   ("priority", optNum u.priority), ("assigneeId", optStr u.assigneeId),
   ("labelIds", optStrList u.labelIds), ("projectId", optStr u.projectId),
   ("stateId", optStr u.stateId), ("estimate", optNum u.estimate),
   ("dueDate", optStr u.dueDate)]

/-- The `details` payload logged for `searchIssues` (the filters object,
flattened into key/value detail pairs). -/
def searchFiltersDetails (f : LinearSearchFilters) : Details :=
  [("query", optStr f.query), ("state", optStrList f.state),
   ("assignee", optStrList f.assignee), ("label", optStrList f.label),
   ("priority", optNumList f.priority), ("team", optStr f.team),
   ("project", optStr f.project), ("limit", optNum f.limit)]

/-- `LinearService.getTeams` (`src/services/linear.ts`, lines 122-134).
The remote round trip is an input (`client`): its teams on success, or the
thrown transport error. -/
def svcGetTeams (log : List LinearActivityItem) (env : ActivityEnv)
    (client : Except JsError (List Team)) :
    List LinearActivityItem × Except LinearAPIError (List Team) :=
  match client with
  | .ok ts =>
      (logActivity log env "list_teams" .team "all"
        [("count", .num ts.length)] true none, .ok ts)
  | .error e =>
      (logActivity log env "list_teams" .team "all" [] false (some (errMsg e)),
       .error { message := "Failed to fetch teams: " ++ errMsg e })

/-- `LinearService.createIssue` (`src/services/linear.ts`, lines 149-180).
`client` is the remote create payload: `ok (some issue)` on success,
`ok none` when the payload carries no issue (the code then throws
`Error('Failed to create issue')`, caught by the same catch), `error` when
the transport throws. -/
def svcCreateIssue (log : List LinearActivityItem) (env : ActivityEnv)
    (input : LinearIssueInput) (client : Except JsError (Option Issue)) :
    List LinearActivityItem × Except LinearAPIError Issue :=
  match client with
  | .ok (some issue) =>
      (logActivity log env "create_issue" .issue issue.id
        [("title", .str input.title), ("teamId", .str input.teamId)] true none,
       .ok issue)
  | .ok none =>
      (logActivity log env "create_issue" .issue "new" (issueInputDetails input)
        false (some "Failed to create issue"),
       .error { message := "Failed to create issue: Failed to create issue" })
  | .error e =>
      (logActivity log env "create_issue" .issue "new" (issueInputDetails input)
        false (some (errMsg e)),
       .error { message := "Failed to create issue: " ++ errMsg e })

/-- `LinearService.getIssue` (`src/services/linear.ts`, lines 182-195). -/
def svcGetIssue (log : List LinearActivityItem) (env : ActivityEnv)
    (issueId : String) (client : Except JsError Issue) :
    List LinearActivityItem × Except LinearAPIError Issue :=
  match client with
  | .ok issue =>
      (logActivity log env "get_issue" .issue issueId
        [("title", .str issue.title), ("identifier", .str issue.identifier)]
        true none, .ok issue)
  | .error e =>
      (logActivity log env "get_issue" .issue issueId [] false (some (errMsg e)),
       .error { message := "Failed to fetch issue: " ++ errMsg e })

/-- `LinearService.updateIssue` (`src/services/linear.ts`, lines 197-223). -/
def svcUpdateIssue (log : List LinearActivityItem) (env : ActivityEnv)
    (issueId : String) (updates : LinearIssueUpdate)
    (client : Except JsError (Option Issue)) :
    List LinearActivityItem × Except LinearAPIError Issue :=
  match client with
  | .ok (some issue) =>
      (logActivity log env "update_issue" .issue issueId
        (issueUpdateDetails updates) true none, .ok issue)
  | .ok none =>
      (logActivity log env "update_issue" .issue issueId
        (issueUpdateDetails updates) false (some "Failed to update issue"),
       .error { message := "Failed to update issue: Failed to update issue" })
  | .error e =>
      (logActivity log env "update_issue" .issue issueId
        (issueUpdateDetails updates) false (some (errMsg e)),
       .error { message := "Failed to update issue: " ++ errMsg e })

/-- `LinearService.searchIssues` (`src/services/linear.ts`, lines 225-251). -/
def svcSearchIssues (log : List LinearActivityItem) (env : ActivityEnv)
    (filters : LinearSearchFilters) (client : Except JsError (List Issue)) :
    List LinearActivityItem × Except LinearAPIError (List Issue) :=
  match client with
  | .ok issues =>
      (logActivity log env "search_issues" .issue "search"
        (searchFiltersDetails filters ++ [("count", .num issues.length)])
        true none, .ok issues)
  | .error e =>
      (logActivity log env "search_issues" .issue "search"
        (searchFiltersDetails filters) false (some (errMsg e)),
       .error { message := "Failed to search issues: " ++ errMsg e })

/-- `LinearService.createComment` (`src/services/linear.ts`, lines 254-277). -/
def svcCreateComment (log : List LinearActivityItem) (env : ActivityEnv)
    (input : LinearCommentInput) (client : Except JsError (Option LinearComment)) :
    List LinearActivityItem × Except LinearAPIError LinearComment :=
  match client with
  | .ok (some c) =>
      (logActivity log env "create_comment" .comment c.id
        [("issueId", .str input.issueId), ("bodyLength", .num input.body.length)]
        true none, .ok c)
  | .ok none =>
      (logActivity log env "create_comment" .comment "new"
        [("body", .str input.body), ("issueId", .str input.issueId)]
        false (some "Failed to create comment"),
       .error { message := "Failed to create comment: Failed to create comment" })
  | .error e =>
      (logActivity log env "create_comment" .comment "new"
        [("body", .str input.body), ("issueId", .str input.issueId)]
        false (some (errMsg e)),
       .error { message := "Failed to create comment: " ++ errMsg e })

/-- `LinearService.getProjects` (`src/services/linear.ts`, lines 280-315):
fetches up to 100 projects and, when a team id is given, keeps only the
projects one of whose (resolved) teams has that id. -/
def svcGetProjects (log : List LinearActivityItem) (env : ActivityEnv)
    (teamId : Option String) (client : Except JsError (List Project)) :
    List LinearActivityItem × Except LinearAPIError (List Project) :=
  match client with
  | .ok ps =>
      let projectList := match teamId with
        | some tid => ps.filter (fun p => p.teams.any (fun t => t.id == tid))
        | none => ps
      (logActivity log env "list_projects" .project "all"
        [("count", .num projectList.length), ("teamId", optStr teamId)]
        true none, .ok projectList)
  | .error e =>
      (logActivity log env "list_projects" .project "all"
        [("teamId", optStr teamId)] false (some (errMsg e)),
       .error { message := "Failed to fetch projects: " ++ errMsg e })

/-- `LinearService.getUsers` (`src/services/linear.ts`, lines 332-347). -/
def svcGetUsers (log : List LinearActivityItem) (env : ActivityEnv)
    (client : Except JsError (List User)) :
    List LinearActivityItem × Except LinearAPIError (List User) :=
  match client with
  | .ok us =>
      (logActivity log env "list_users" .user "all"
        [("count", .num us.length)] true none, .ok us)
  | .error e =>
      (logActivity log env "list_users" .user "all" [] false (some (errMsg e)),
       .error { message := "Failed to fetch users: " ++ errMsg e })

/-- `LinearService.getLabels` (`src/services/linear.ts`, lines 365-388); the
team filter is applied remotely, so `client` already carries the result. -/
def svcGetLabels (log : List LinearActivityItem) (env : ActivityEnv)
    (teamId : Option String) (client : Except JsError (List IssueLabel)) :
    List LinearActivityItem × Except LinearAPIError (List IssueLabel) :=
  match client with
  | .ok ls =>
      (logActivity log env "list_labels" .label "all"
        [("count", .num ls.length), ("teamId", optStr teamId)] true none,
       .ok ls)
  | .error e =>
      (logActivity log env "list_labels" .label "all"
        [("teamId", optStr teamId)] false (some (errMsg e)),
       .error { message := "Failed to fetch labels: " ++ errMsg e })

/-- `LinearService.getWorkflowStates` (`src/services/linear.ts`,
lines 391-411). -/
def svcGetWorkflowStates (log : List LinearActivityItem) (env : ActivityEnv)
    (teamId : String) (client : Except JsError (List WorkflowState)) :
    List LinearActivityItem × Except LinearAPIError (List WorkflowState) :=
  match client with
  | .ok ws =>
      (logActivity log env "list_workflow_states" .team teamId
        [("count", .num ws.length)] true none, .ok ws)
  | .error e =>
      (logActivity log env "list_workflow_states" .team teamId []
        false (some (errMsg e)),
       .error { message := "Failed to fetch workflow states: " ++ errMsg e })

/-- The outcome ledger of a service operation extends the previous ledger by
exactly one item (one `logActivity` call), with the stated action tag,
success flag and recorded error text. -/
def logsOnce {α : Type} (oldLog : List LinearActivityItem)
    (out : List LinearActivityItem × Except LinearAPIError α)
    (action : String) (ok : Bool) (e : Option String) : Prop :=
  ∃ it, out.fst = logPush oldLog it ∧ it.action = action ∧
    it.success = ok ∧ it.error = e

/-- **C9.** Every modelled remote-client operation of `LinearService`
(`getTeams`, `createIssue`, `getIssue`, `updateIssue`, `searchIssues`,
`createComment`, `getProjects`, `getUsers`, `getLabels`,
`getWorkflowStates`) appends exactly one `ActivityItem` per call: with
`success = true` and no error on the success path, and with
`success = false` plus the extracted error text on every failure path; and
on failure it wraps the thrown transport error into a typed
`LinearAPIError` whose message prefixes a human-readable description to the
extracted message, re-raising that typed error as the operation's result. -/
theorem service_ops_log_once_and_wrap
    (log : List LinearActivityItem) (env : ActivityEnv) (e : JsError)
    (ts : List Team) (input : LinearIssueInput) (issue : Issue)
    (issueId : String) (upd : LinearIssueUpdate)
    (filters : LinearSearchFilters) (issues : List Issue)
    (cin : LinearCommentInput) (c : LinearComment)
    (teamId : Option String) (ps : List Project) (us : List User)
    (ls : List IssueLabel) (tid : String) (ws : List WorkflowState) :
    (logsOnce log (svcGetTeams log env (.ok ts)) "list_teams" true none ∧
     logsOnce log (svcGetTeams log env (.error e)) "list_teams" false
       (some (errMsg e)) ∧
     (svcGetTeams log env (.error e)).snd
       = .error { message := "Failed to fetch teams: " ++ errMsg e }) ∧
    (logsOnce log (svcCreateIssue log env input (.ok (some issue)))
       "create_issue" true none ∧
     logsOnce log (svcCreateIssue log env input (.error e)) "create_issue"
       false (some (errMsg e)) ∧
     (svcCreateIssue log env input (.error e)).snd
       = .error { message := "Failed to create issue: " ++ errMsg e } ∧
     logsOnce log (svcCreateIssue log env input (.ok none)) "create_issue"
       false (some "Failed to create issue")) ∧
    (logsOnce log (svcGetIssue log env issueId (.ok issue)) "get_issue"
       true none ∧
     logsOnce log (svcGetIssue log env issueId (.error e)) "get_issue" false
       (some (errMsg e)) ∧
     (svcGetIssue log env issueId (.error e)).snd
       = .error { message := "Failed to fetch issue: " ++ errMsg e }) ∧
    (logsOnce log (svcUpdateIssue log env issueId upd (.ok (some issue)))
       "update_issue" true none ∧
     logsOnce log (svcUpdateIssue log env issueId upd (.error e))
       "update_issue" false (some (errMsg e)) ∧
     (svcUpdateIssue log env issueId upd (.error e)).snd
       = .error { message := "Failed to update issue: " ++ errMsg e } ∧
     logsOnce log (svcUpdateIssue log env issueId upd (.ok none))
       "update_issue" false (some "Failed to update issue")) ∧
    (logsOnce log (svcSearchIssues log env filters (.ok issues))
       "search_issues" true none ∧
     logsOnce log (svcSearchIssues log env filters (.error e))
       "search_issues" false (some (errMsg e)) ∧
     (svcSearchIssues log env filters (.error e)).snd
       = .error { message := "Failed to search issues: " ++ errMsg e }) ∧
    (logsOnce log (svcCreateComment log env cin (.ok (some c)))
       "create_comment" true none ∧
     logsOnce log (svcCreateComment log env cin (.error e)) "create_comment"
       false (some (errMsg e)) ∧
     (svcCreateComment log env cin (.error e)).snd
       = .error { message := "Failed to create comment: " ++ errMsg e } ∧
     logsOnce log (svcCreateComment log env cin (.ok none)) "create_comment"
       false (some "Failed to create comment")) ∧
    (logsOnce log (svcGetProjects log env teamId (.ok ps)) "list_projects"
       true none ∧
     logsOnce log (svcGetProjects log env teamId (.error e)) "list_projects"
       false (some (errMsg e)) ∧
     (svcGetProjects log env teamId (.error e)).snd
       = .error { message := "Failed to fetch projects: " ++ errMsg e }) ∧
    (logsOnce log (svcGetUsers log env (.ok us)) "list_users" true none ∧
     logsOnce log (svcGetUsers log env (.error e)) "list_users" false
       (some (errMsg e)) ∧
     (svcGetUsers log env (.error e)).snd
       = .error { message := "Failed to fetch users: " ++ errMsg e }) ∧
    (logsOnce log (svcGetLabels log env teamId (.ok ls)) "list_labels"
       true none ∧
     logsOnce log (svcGetLabels log env teamId (.error e)) "list_labels"
       false (some (errMsg e)) ∧
     (svcGetLabels log env teamId (.error e)).snd
       = .error { message := "Failed to fetch labels: " ++ errMsg e }) ∧
    (logsOnce log (svcGetWorkflowStates log env tid (.ok ws))
       "list_workflow_states" true none ∧
     logsOnce log (svcGetWorkflowStates log env tid (.error e))
       "list_workflow_states" false (some (errMsg e)) ∧
     (svcGetWorkflowStates log env tid (.error e)).snd
       = .error { message := "Failed to fetch workflow states: " ++ errMsg e }) := by
  refine ⟨⟨⟨_, rfl, rfl, rfl, rfl⟩, ⟨_, rfl, rfl, rfl, rfl⟩, rfl⟩,
    ⟨⟨_, rfl, rfl, rfl, rfl⟩, ⟨_, rfl, rfl, rfl, rfl⟩, rfl,
      ⟨_, rfl, rfl, rfl, rfl⟩⟩,
    ⟨⟨_, rfl, rfl, rfl, rfl⟩, ⟨_, rfl, rfl, rfl, rfl⟩, rfl⟩,
    ⟨⟨_, rfl, rfl, rfl, rfl⟩, ⟨_, rfl, rfl, rfl, rfl⟩, rfl,
      ⟨_, rfl, rfl, rfl, rfl⟩⟩,
    ⟨⟨_, rfl, rfl, rfl, rfl⟩, ⟨_, rfl, rfl, rfl, rfl⟩, rfl⟩,
    ⟨⟨_, rfl, rfl, rfl, rfl⟩, ⟨_, rfl, rfl, rfl, rfl⟩, rfl,
      ⟨_, rfl, rfl, rfl, rfl⟩⟩,
    ⟨⟨_, rfl, rfl, rfl, rfl⟩, ⟨_, rfl, rfl, rfl, rfl⟩, rfl⟩,
    ⟨⟨_, rfl, rfl, rfl, rfl⟩, ⟨_, rfl, rfl, rfl, rfl⟩, rfl⟩,
    ⟨⟨_, rfl, rfl, rfl, rfl⟩, ⟨_, rfl, rfl, rfl, rfl⟩, rfl⟩,
    ⟨⟨_, rfl, rfl, rfl, rfl⟩, ⟨_, rfl, rfl, rfl, rfl⟩, rfl⟩⟩

/- ### String machinery: truthiness, regular expressions, fence stripping -/

/-- JavaScript truthiness of an optional string value (`undefined` and the
empty string are falsy). -/
def jsTruthy : Option String → Bool
  | none => false
  | some s => s != ""

/-- JavaScript truthiness of an optional string held as a character list. -/
def jsTruthyL : Option (List Char) → Bool
  | none => false
  | some s => !s.isEmpty

/-- A JavaScript word character (`\w`, i.e. `[A-Za-z0-9_]`). -/
def isWordChar (c : Char) : Bool :=
  c.isAlphanum || c == '_'

/-- Match of the regular expression `\w+-\d+` anchored at the start of `s`:
the greedy maximal word-character run, a hyphen, then the greedy maximal
digit run. Returns the matched token. -/
def matchWordHyphenDigitsAt (s : List Char) : Option (List Char) :=
  match s.takeWhile isWordChar, s.dropWhile isWordChar with
  | [], _ => none
  | _ :: _, [] => none
  | w :: ws, c :: rest =>
    if c = '-' then
      match rest.takeWhile Char.isDigit with
      | [] => none
      | d :: ds => some ((w :: ws) ++ '-' :: d :: ds)
    else none

/-- `content.match(/(\w+-\d+)/)`: the leftmost match of `\w+-\d+` in the
text, scanning start positions left to right as the JavaScript regular
expression engine does. -/
def regexFirstMatch : List Char → Option (List Char)
  | [] => none
  | c :: rest =>
    match matchWordHyphenDigitsAt (c :: rest) with
    | some m => some m
    | none => regexFirstMatch rest

/-- Whether `m` matches `\w+-\d+` in full: a non-empty word-character run,
a hyphen, then a non-empty all-digit run. -/
def fullWordHyphenDigits (m : List Char) : Bool :=
  !(m.takeWhile isWordChar).isEmpty &&
    (match m.dropWhile isWordChar with
     | '-' :: ds => !ds.isEmpty && ds.all Char.isDigit
     | _ => false)

/-- Modelled from the spec: the "identifier-like" token shape the spec
ascribes to the fallback, `[A-Za-z]+-[0-9]+` — letters only before the
hyphen. Stated from the spec's words for comparison with the source's
actual regular expression `\w+-\d+`. -/
def specAlphaHyphenDigits (m : List Char) : Bool :=
  !(m.takeWhile Char.isAlpha).isEmpty &&
    (match m.dropWhile Char.isAlpha with
     | '-' :: ds => !ds.isEmpty && ds.all Char.isDigit
     | _ => false)

/-- `response.replace(/^```(?:json)?\n?/, '')`: remove a leading code-fence
marker, its optional `json` tag, and one following newline. -/
def stripFenceStart (s : List Char) : List Char :=
  if (String.toList "```").isPrefixOf s then
    let r1 := s.drop 3
    let r2 := if (String.toList "json").isPrefixOf r1 then r1.drop 4 else r1
    match r2 with
    | '\n' :: rest => rest
    | _ => r2
  else s

/-- `.replace(/\n?```$/, '')`: remove a trailing code-fence marker and one
preceding newline. -/
def stripFenceEnd (s : List Char) : List Char :=
  if (String.toList "\n```").isSuffixOf s then s.take (s.length - 4)
  else if (String.toList "```").isSuffixOf s then s.take (s.length - 3)
  else s

/-- `.trim()`: remove leading and trailing whitespace. -/
def trimChars (s : List Char) : List Char :=
  ((s.dropWhile Char.isWhitespace).reverse.dropWhile Char.isWhitespace).reverse

/-- The response clean-up applied before `JSON.parse` in the actions:
`response.replace(/^```(?:json)?\n?/, '').replace(/\n?```$/, '').trim()`. -/
def stripAndTrim (s : List Char) : List Char :=
  trimChars (stripFenceEnd (stripFenceStart s))

/-- A Markdown code fence around `inner`, optionally tagged `json`. -/
def fenceWrap (tagged : Bool) (inner : List Char) : List Char :=
  (if tagged then String.toList "```json" else String.toList "```") ++
    ('\n' :: inner) ++ String.toList "\n```"

/-- Substring test (`String.prototype.includes`): does `pat` occur in `s`? -/
def hasSub (pat : List Char) : List Char → Bool
  | [] => pat.isEmpty
  | c :: rest => pat.isPrefixOf (c :: rest) || hasSub pat rest

/-- The "searching all issues" test of the search-issues action
(`src/actions/searchIssues.ts`, lines 622-625): the lower-cased text
contains `"all"` and also one of `"issue"`, `"bug"`, `"task"`. -/
def searchingAllIssues (content : List Char) : Bool :=
  let lc := content.map Char.toLower
  hasSub (String.toList "all") lc &&
    (hasSub (String.toList "issue") lc || hasSub (String.toList "bug") lc ||
      hasSub (String.toList "task") lc)

/- ### Regular-expression lemmas -/

lemma takeWhile_append_of_all {p : Char → Bool} (l₁ l₂ : List Char)
    (h : ∀ x ∈ l₁, p x = true) :
    (l₁ ++ l₂).takeWhile p = l₁ ++ l₂.takeWhile p := by
  induction l₁ with
  | nil => simp
  | cons a as ih =>
    have ha : p a = true := h a (by simp)
    have has : ∀ x ∈ as, p x = true := fun x hx => h x (by simp [hx])
    simp [List.takeWhile_cons, ha, ih has]

lemma dropWhile_append_of_all {p : Char → Bool} (l₁ l₂ : List Char)
    (h : ∀ x ∈ l₁, p x = true) :
    (l₁ ++ l₂).dropWhile p = l₂.dropWhile p := by
  induction l₁ with
  | nil => simp
  | cons a as ih =>
    have ha : p a = true := h a (by simp)
    have has : ∀ x ∈ as, p x = true := fun x hx => h x (by simp [hx])
    simp [List.dropWhile_cons, ha, ih has]

/-- Any token produced by the anchored matcher matches `\w+-\d+` in full and
is a prefix of the scanned text. -/
lemma matchWordHyphenDigitsAt_spec {s m : List Char}
    (h : matchWordHyphenDigitsAt s = some m) :
    fullWordHyphenDigits m = true ∧ m <+: s := by
  unfold matchWordHyphenDigitsAt at h
  cases hrun : s.takeWhile isWordChar with
  | nil => rw [hrun] at h; simp at h
  | cons w ws =>
  rw [hrun] at h
  cases hrest : s.dropWhile isWordChar with
  | nil => rw [hrest] at h; simp at h
  | cons c rest =>
  rw [hrest] at h
  by_cases hc : c = '-'
  case neg => simp [hc] at h
  subst hc
  simp only [if_pos rfl] at h
  cases hdig : rest.takeWhile Char.isDigit with
  | nil => rw [hdig] at h; simp at h
  | cons d ds =>
  rw [hdig] at h
  have hm : (w :: ws) ++ '-' :: d :: ds = m := Option.some.inj h
  have hallw : ∀ x ∈ (w :: ws), isWordChar x = true := fun x hx =>
    List.mem_takeWhile_imp (hrun ▸ hx)
  have halld : ∀ x ∈ (d :: ds), Char.isDigit x = true := fun x hx =>
    List.mem_takeWhile_imp (hdig ▸ hx)
  constructor
  · rw [← hm]
    unfold fullWordHyphenDigits
    rw [takeWhile_append_of_all _ _ hallw, dropWhile_append_of_all _ _ hallw]
    have hw : isWordChar '-' = false := by decide
    simp [List.takeWhile_cons, List.dropWhile_cons, hw,
      List.all_eq_true.mpr halld]
  · rw [← hm]
    obtain ⟨t, ht⟩ : (d :: ds) <+: rest := hdig ▸ List.takeWhile_prefix _
    refine ⟨t, ?_⟩
    have hs : s.takeWhile isWordChar ++ s.dropWhile isWordChar = s :=
      List.takeWhile_append_dropWhile _ _
    rw [hrun, hrest] at hs
    calc ((w :: ws) ++ '-' :: d :: ds) ++ t
        = (w :: ws) ++ '-' :: ((d :: ds) ++ t) := by simp
      _ = (w :: ws) ++ '-' :: rest := by rw [ht]
      _ = s := hs

/-- Any token produced by the leftmost-scan matcher matches `\w+-\d+` in
full and occurs in the text. -/
lemma regexFirstMatch_spec : ∀ {s m : List Char},
    regexFirstMatch s = some m →
    fullWordHyphenDigits m = true ∧ m <:+: s := by
  intro s
  induction s with
  | nil => intro m h; simp [regexFirstMatch] at h
  | cons c rest ih =>
    intro m h
    unfold regexFirstMatch at h
    cases hma : matchWordHyphenDigitsAt (c :: rest) with
    | some m' =>
      rw [hma] at h
      obtain rfl : m' = m := Option.some.inj h
      obtain ⟨h1, h2⟩ := matchWordHyphenDigitsAt_spec hma
      exact ⟨h1, h2.isInfix⟩
    | none =>
      rw [hma] at h
      obtain ⟨h1, h2⟩ := ih h
      exact ⟨h1, List.infix_cons h2⟩

/- ### Fence-stripping lemmas -/

lemma stripFenceStart_fenceWrap (tagged : Bool) (inner : List Char) :
    stripFenceStart (fenceWrap tagged inner) = inner ++ String.toList "\n```" := by
  cases tagged <;> rfl

lemma stripFenceEnd_append (inner : List Char) :
    stripFenceEnd (inner ++ String.toList "\n```") = inner := by
  unfold stripFenceEnd
  have hsuf : (String.toList "\n```").isSuffixOf
      (inner ++ String.toList "\n```") = true := by
    rw [List.isSuffixOf_iff_suffix]
    exact ⟨inner, rfl⟩
  rw [if_pos hsuf]
  have hlen : (inner ++ String.toList "\n```").length = inner.length + 4 := by
    simp
  rw [hlen]
  have h4 : inner.length + 4 - 4 = inner.length := by omega
  rw [h4]
  exact List.take_left inner (String.toList "\n```")

lemma stripAndTrim_fenceWrap (tagged : Bool) (inner : List Char) :
    stripAndTrim (fenceWrap tagged inner) = trimChars inner := by
  unfold stripAndTrim
  rw [stripFenceStart_fenceWrap, stripFenceEnd_append]

/- ### The get-issue request interpreter (`src/actions/getIssue.ts`) -/

/-- The model's JSON result of the get-issue extraction prompt: an optional
`directId` string and an optional `searchBy` object held as its key/value
pairs. -/
structure ParsedGetIssue where
  directId : Option (List Char) := none
  searchBy : Option (List (String × String)) := none
  deriving DecidableEq, Repr

/-- The interpretation outcome of the get-issue action before any remote
call is made: resolve a direct id, proceed to the search path, throw
(`Could not understand issue reference`, the no-response/no-regex-match
case), or answer the `Could not understand which issue…` message. -/
inductive GetIssueInterp where
  | direct (id : List Char)
  | searchPath (sb : List (String × String))
  | thrownNoRef
  | failUnderstood
  deriving DecidableEq, Repr

/-- The `parsed.searchBy && Object.keys(parsed.searchBy).length > 0` branch
(`src/actions/getIssue.ts`, line 141): enter the search path only for a
present, non-empty criteria object. -/
def searchByOutcome : Option (List (String × String)) → GetIssueInterp
  | some sb => if !sb.isEmpty then .searchPath sb else .failUnderstood
  | none => .failUnderstood

/-- The interpretation flow of `getIssueAction.handler`
(`src/actions/getIssue.ts`, lines 117-255), up to the point where a remote
call (or user-facing message) is chosen. `parse` models the external
`JSON.parse` plus field extraction applied to the cleaned completion
response; a falsy (absent/empty) response short-circuits to the regex
fallback on the raw text (line 121-129); a parse failure falls back to the
same regex (lines 237-245); a truthy `directId` resolves directly
(line 135). -/
def interpretGetIssue (parse : List Char → Option ParsedGetIssue)
    (content : List Char) (response : Option (List Char)) : GetIssueInterp :=
  if jsTruthyL response then
    match parse (stripAndTrim (response.getD [])) with
    | some parsed =>
      match parsed.directId with
      | some d => if !d.isEmpty then .direct d else searchByOutcome parsed.searchBy
      | none => searchByOutcome parsed.searchBy
    | none =>
      match regexFirstMatch content with
      | some m => .direct m
      | none => .failUnderstood
  else
    match regexFirstMatch content with
    | some m => .direct m
    | none => .thrownNoRef

/-- **C5 (counterexample).** The claim states the fallback regular
expression matches exactly the letters-hyphen-digits pattern
`[A-Za-z]+-[0-9]+` and resolves to such a token. The source's fallback is
`content.match(/(\w+-\d+)/)`, whose word-character class also accepts
digits and underscores: on the text `"build 2024-01 then ENG-123"` — which
does contain the `[A-Za-z]+-[0-9]+` token `ENG-123` — an unavailable
completion capability makes the interpreter resolve to `2024-01`, a token
that does *not* match the claimed letters-only pattern. -/
theorem regex_fallback_counterexample :
    interpretGetIssue (fun _ => none)
        (String.toList "build 2024-01 then ENG-123") none
      = .direct (String.toList "2024-01") ∧
    specAlphaHyphenDigits (String.toList "2024-01") = false ∧
    specAlphaHyphenDigits (String.toList "ENG-123") = true ∧
    (String.toList "ENG-123") <:+: (String.toList "build 2024-01 then ENG-123") := by
  refine ⟨by decide, by decide, by decide,
    ⟨String.toList "build 2024-01 then ", [], by decide⟩⟩

/-- **C5 (amended).** When the completion capability returns no usable
output (absent or empty response), or its output fails JSON parsing, the
get-issue interpreter falls back to the fixed regular expression
`\w+-\d+` — one or more word characters (letters, digits or underscore), a
hyphen, then one or more digits — applied to the raw text, resolving to the
leftmost such match; every token so matched fits `\w+-\d+` in full and
occurs in the text, but need not be purely alphabetic before the hyphen.
When no such token exists, the empty-response path throws while the
parse-failure path reports the could-not-understand message. -/
theorem regex_fallback_behavior (parse : List Char → Option ParsedGetIssue)
    (content r : List Char) :
    (interpretGetIssue parse content none
      = (match regexFirstMatch content with
         | some m => GetIssueInterp.direct m
         | none => GetIssueInterp.thrownNoRef)) ∧
    (interpretGetIssue parse content (some [])
      = (match regexFirstMatch content with
         | some m => GetIssueInterp.direct m
         | none => GetIssueInterp.thrownNoRef)) ∧
    (r.isEmpty = false → parse (stripAndTrim r) = none →
      interpretGetIssue parse content (some r)
        = (match regexFirstMatch content with
           | some m => GetIssueInterp.direct m
           | none => GetIssueInterp.failUnderstood)) ∧
    (∀ m, regexFirstMatch content = some m →
      fullWordHyphenDigits m = true ∧ m <:+: content) := by
  refine ⟨rfl, rfl, ?_, fun m hm => regexFirstMatch_spec hm⟩
  intro hne hp
  unfold interpretGetIssue
  have ht : jsTruthyL (some r) = true := by simp [jsTruthyL, hne]
  rw [ht]
  simp only [if_true, Option.getD_some, hp]

theorem regex_fallback_behavior_witness :
    interpretGetIssue (fun _ => none) (String.toList "fix ENG-123")
        (some (String.toList "oops"))
      = .direct (String.toList "ENG-123") := by
  have h := ((regex_fallback_behavior (fun _ => none)
      (String.toList "fix ENG-123") (String.toList "oops")).2.2.1)
    (by decide) (by decide)
  rw [h]
  decide

/-- **C6.** For every completion response that is a fenced block —
optionally tagged `json` — whose cleaned content parses to an object with a
truthy `directId` field, the interpreter strips the fences, trims, parses,
and resolves to exactly that `directId`; the raw request text `content` is
universally quantified and never consulted, so the regex fallback is not
invoked. -/
theorem fenced_directId_resolves (parse : List Char → Option ParsedGetIssue)
    (content inner : List Char) (tagged : Bool) (p : ParsedGetIssue)
    (d : List Char) (hp : parse (trimChars inner) = some p)
    (hd : p.directId = some d) (hne : d.isEmpty = false) :
    interpretGetIssue parse content (some (fenceWrap tagged inner))
      = .direct d := by
  unfold interpretGetIssue
  have ht : jsTruthyL (some (fenceWrap tagged inner)) = true := by
    cases tagged <;> rfl
  rw [ht]
  simp only [if_true, Option.getD_some, stripAndTrim_fenceWrap, hp, hd, hne]
  rfl

theorem fenced_directId_resolves_witness :
    interpretGetIssue
        (fun s => if s == String.toList "payload"
          then some { directId := some (String.toList "ENG-123"), searchBy := none }
          else none)
        (String.toList "show me the login bug")
        (some (fenceWrap true (String.toList " payload ")))
      = .direct (String.toList "ENG-123") :=
  fenced_directId_resolves _ _ _ true
    { directId := some (String.toList "ENG-123"), searchBy := none }
    (String.toList "ENG-123") (by decide) (by decide) (by decide)

/- ### Default-team application (C3) -/

/-- The default-team step of the search-issues action
(`src/actions/searchIssues.ts`, lines 617-632): when the current team
filter is falsy and the configured default key is truthy, the default is
applied unless the lower-cased request text contains `"all"` together with
one of `"issue"`, `"bug"`, `"task"`. -/
def applyDefaultTeamSearch (content : List Char) (team dflt : Option String) :
    Option String :=
  if jsTruthy team then team
  else if jsTruthy dflt then
    if searchingAllIssues content then team else dflt
  else team

/-- The default-team step of the get-issue action
(`src/actions/getIssue.ts`, lines 172-176): `if (defaultTeamKey &&
!filters.team) filters.team = defaultTeamKey` — the request text is not
consulted at all. -/
def applyDefaultTeamGetIssue (team dflt : Option String) : Option String :=
  if jsTruthy dflt && !(jsTruthy team) then dflt else team

/-- **C3 (counterexample).** The claim states the configured default team
is applied *iff* no explicit team is named *and* the text has no explicit
"all" qualifier, across search/create/list requests. The get-issue action
violates the second condition: with no explicit team, default `"ENG"`
configured, and the request text `"show me all issues"` (which carries the
"all" qualifier as the search action itself defines it), the get-issue
path still applies the default team. -/
theorem default_team_counterexample :
    applyDefaultTeamGetIssue none (some "ENG") = some "ENG" ∧
    searchingAllIssues (String.toList "show me all issues") = true ∧
    jsTruthy (some "ENG") = true := by
  refine ⟨rfl, by decide, by decide⟩

/-- **C3 (amended).** With a truthy configured default team: in the
search-issues action, the default team is applied iff the request carried
no truthy team filter and the request text does not contain `"all"`
together with one of `"issue"`/`"bug"`/`"task"` (lower-cased substring
tests); in the get-issue action, the default team is applied iff the
request carried no truthy team filter — the "all" qualifier is not
consulted there. -/
theorem default_team_application (content : List Char)
    (team dflt : Option String) (hd : jsTruthy dflt = true) :
    applyDefaultTeamSearch content team dflt
      = (if !(jsTruthy team) && !(searchingAllIssues content) then dflt
         else team) ∧
    applyDefaultTeamGetIssue team dflt
      = (if !(jsTruthy team) then dflt else team) := by
  cases ht : jsTruthy team <;> cases ha : searchingAllIssues content <;>
    simp [applyDefaultTeamSearch, applyDefaultTeamGetIssue, ht, ha, hd]

theorem default_team_application_witness :
    applyDefaultTeamSearch (String.toList "show my high priority bugs")
        none (some "ENG")
      = (if !(jsTruthy (none : Option String)) &&
            !(searchingAllIssues (String.toList "show my high priority bugs"))
         then some "ENG" else none) :=
  (default_team_application (String.toList "show my high priority bugs")
    none (some "ENG") (by decide)).1

/- ### Candidate-set policy of the get-issue search path (C7) -/

/-- `issues.sort((a, b) => new Date(b.createdAt).getTime() - new
Date(a.createdAt).getTime())` (`src/actions/getIssue.ts`, line 198):
a stable sort by creation time, newest first. -/
def sortByCreatedDesc (issues : List Issue) : List Issue :=
  issues.mergeSort (fun a b => decide (b.createdAt ≤ a.createdAt))

/-- The outcome of the get-issue search path once the remote search has
returned its candidate set. -/
inductive GetIssueSearchOutcome where
  | notFound
  | resolved (i : Issue)
  | clarify (shown : List Issue) (total : Nat)
  deriving DecidableEq, Repr

/-- The candidate-set policy of `getIssueAction.handler`
(`src/actions/getIssue.ts`, lines 184-235): empty → the not-found message;
with a recency hint, sort newest-first and resolve the first candidate;
exactly one candidate → resolve it; otherwise a disambiguation listing of
the first 5 candidates together with the total count. No remote mutation is
performed on any path — the outcome is a read or a message. -/
def candidatePolicy (recency : Bool) (issues0 : List Issue) :
    GetIssueSearchOutcome :=
  match issues0 with
  | [] => .notFound
  | _ :: _ =>
    let issues := if recency then sortByCreatedDesc issues0 else issues0
    match issues with
    | [] => .notFound
    | x :: rest =>
      if recency then .resolved x
      else if rest.isEmpty then .resolved x
      else .clarify ((x :: rest).take 5) (x :: rest).length

/-- Two concrete issues used by the candidate-policy counterexample. -/
def issueA : Issue :=
  { id := "uuid-a", identifier := "ENG-7", title := "Newest bug",
    createdAt := 200 }

/-- Second concrete issue (older) for the candidate-policy counterexample. -/
def issueB : Issue :=
  { id := "uuid-b", identifier := "ENG-3", title := "Older bug",
    createdAt := 100 }

/-- **C7 (counterexample).** The claim states that every interpreted
get-issue search with two or more candidates returns a disambiguation
listing. With a recency hint (`searchBy.recency` set) and two candidates,
the code instead sorts newest-first and resolves directly to the newest
candidate — no disambiguation listing is produced. -/
theorem candidate_policy_counterexample :
    candidatePolicy true [issueB, issueA] = .resolved issueA ∧
    candidatePolicy true [issueB, issueA]
      ≠ .clarify ([issueB, issueA].take 5) 2 := by
  have hs : sortByCreatedDesc [issueB, issueA] = [issueA, issueB] := by
    simp [sortByCreatedDesc, List.mergeSort, issueA, issueB]
  have hc : candidatePolicy true [issueB, issueA] = .resolved issueA := by
    simp [candidatePolicy, hs]
  refine ⟨hc, by rw [hc]; simp⟩

/-- **C7 (amended).** For the interpreted get-issue search: an empty
candidate set yields the non-fatal not-found outcome; a singleton set
resolves directly to its issue (with or without a recency hint); two or
more candidates *without* a recency hint yield a disambiguation listing of
the first `min 5 n` candidates (at most 5, each carrying its identifier,
title and state) together with the total count, and no remote mutation;
two or more candidates *with* a recency hint resolve directly to a
candidate that is newest (its `createdAt` is maximal among the set). -/
theorem candidate_policy_cases (issues : List Issue) :
    (candidatePolicy false [] = .notFound ∧
     candidatePolicy true [] = .notFound) ∧
    (∀ i, candidatePolicy false [i] = .resolved i ∧
      candidatePolicy true [i] = .resolved i) ∧
    (2 ≤ issues.length →
      candidatePolicy false issues
        = .clarify (issues.take 5) issues.length ∧
      (issues.take 5).length ≤ 5) ∧
    (issues ≠ [] →
      ∃ x, candidatePolicy true issues = .resolved x ∧ x ∈ issues ∧
        ∀ y ∈ issues, y.createdAt ≤ x.createdAt) := by
  refine ⟨⟨rfl, rfl⟩, ?_, ?_, ?_⟩
  · intro i
    constructor
    · rfl
    · have hs : sortByCreatedDesc [i] = [i] :=
        List.perm_singleton.mp (List.mergeSort_perm _ _)
      simp [candidatePolicy, hs]
  · intro hlen
    match issues, hlen with
    | x :: y :: rest, _ =>
      constructor
      · simp [candidatePolicy]
      · rw [List.length_take]
        omega
  · intro hne
    match issues, hne with
    | z :: zs, _ =>
      have hperm : (sortByCreatedDesc (z :: zs)).Perm (z :: zs) :=
        List.mergeSort_perm _ _
      have htrans : ∀ a b c : Issue,
          decide (b.createdAt ≤ a.createdAt) = true →
          decide (c.createdAt ≤ b.createdAt) = true →
          decide (c.createdAt ≤ a.createdAt) = true := by
        intro a b c h1 h2
        simp only [decide_eq_true_eq] at *
        omega
      have htotal : ∀ a b : Issue,
          (decide (b.createdAt ≤ a.createdAt) ||
            decide (a.createdAt ≤ b.createdAt)) = true := by
        intro a b
        simp only [Bool.or_eq_true, decide_eq_true_eq]
        omega
      have hsorted := List.sorted_mergeSort htrans htotal (z :: zs)
      cases hs : sortByCreatedDesc (z :: zs) with
      | nil =>
        rw [hs] at hperm
        have := hperm.length_eq
        simp at this
      | cons x rest =>
        refine ⟨x, ?_, ?_, ?_⟩
        · simp [candidatePolicy, hs]
        · exact hperm.mem_iff.mp (hs ▸ List.mem_cons_self x rest)
        · intro y hy
          have hy' : y ∈ x :: rest := hs ▸ hperm.mem_iff.mpr hy
          rcases List.mem_cons.mp hy' with rfl | hmem
          · exact le_refl _
          · have hpw := (List.pairwise_cons.mp
              (show List.Pairwise
                  (fun a b => decide (b.createdAt ≤ a.createdAt) = true)
                  (x :: rest) from hs ▸ hsorted)).1 y hmem
            exact of_decide_eq_true hpw

theorem candidate_policy_cases_witness :
    candidatePolicy false [issueA, issueB]
      = .clarify ([issueA, issueB].take 5) 2 :=
  ((candidate_policy_cases [issueA, issueB]).2.2.1 (by decide)).1

/- ### The delete-issue (archive) flow (C1) -/

/-- The remote side's issue lookup (`client.issue(issueId)` of the Linear
SDK): an issue is addressable by its stable id or by its human identifier
(e.g. `ENG-123`). The remote state is the list of issues of the workspace. -/
def findIssue (remote : List Issue) (issueId : String) : Option Issue :=
  remote.find? (fun i => i.id == issueId || i.identifier == issueId)

/-- Modelled from the spec: `LinearService.deleteIssue` is invoked by
`deleteIssueAction` (`src/actions/createIssue.ts`, line 358 — "Archive the
issue (Linear doesn't support hard deletion)"), but its definition is
absent from the sources. Per the spec's archive semantics — "deletion of an
issue is implemented as a state transition to an archived status, never
physical removal" and "one ActivityItem with `resourceType="issue",
resourceId` equal to the issue's stable id is appended" — it looks the
issue up, marks it archived in place (no element is removed from the remote
state), and records exactly one activity item carrying the issue's stable
id. -/
def svcDeleteIssue (remote : List Issue) (log : List LinearActivityItem)
    (env : ActivityEnv) (issueId : String) :
    List Issue × List LinearActivityItem × Except LinearAPIError Unit :=
  match findIssue remote issueId with
  | some issue =>
    (remote.map (fun i =>
        if i.id == issue.id then { i with archived := true } else i),
     logActivity log env "delete_issue" .issue issue.id
       [("identifier", .str issue.identifier)] true none,
     .ok ())
  | none =>
    (remote,
     logActivity log env "delete_issue" .issue issueId [] false
       (some "Issue not found"),
     .error { message := "Failed to delete issue: Issue not found" })

/-- The uniform action result shape `{ text, success }`. -/
structure ActionResult where
  text : String
  success : Bool
  deriving DecidableEq, Repr

/-- `deleteIssueAction.handler` (`src/actions/createIssue.ts`,
lines 276-389) from the point where the issue id has been resolved (the
`_options.issueId` path of line 305): fetch the issue via
`linearService.getIssue` (which records a `get_issue` item), archive it via
`linearService.deleteIssue`, and return the result text confirming
archival; if the lookup fails, the thrown `LinearAPIError` is caught by the
outer catch and converted into the failure text. -/
def deleteIssueHandler (remote : List Issue) (log : List LinearActivityItem)
    (env1 env2 : ActivityEnv) (issueId : String) :
    List Issue × List LinearActivityItem × ActionResult :=
  match findIssue remote issueId with
  | none =>
    let r := svcGetIssue log env1 issueId (.error (.err "Entity not found"))
    (remote, r.fst,
     { text := "❌ Failed to delete issue: Failed to fetch issue: Entity not found"
       success := false })
  | some issue =>
    let r := svcGetIssue log env1 issueId (.ok issue)
    let d := svcDeleteIssue remote r.fst env2 issueId
    (d.fst, d.snd.fst,
     { text := "Archived issue " ++ issue.identifier ++ ": \"" ++
         issue.title ++ "\""
       success := true })

/-- **C1.** For every delete-issue request naming an existing issue (by its
human identifier, distinct from the stable id): the remote state keeps the
same number of issues (nothing physically deleted) and the named issue is
now present with `archived = true`; the returned result text confirms
archival and succeeds; and the ledger is extended by exactly the two items
of the flow — the `get_issue` lookup item and the `delete_issue` archival
item — of which exactly one carries resource type `issue` together with
the issue's stable id. `spec-modelled`: `LinearService.deleteIssue` is
absent from the sources and is modelled from the spec's archive clause. -/
theorem delete_issue_archives (remote : List Issue)
    (log : List LinearActivityItem) (env1 env2 : ActivityEnv)
    (issueId : String) (issue : Issue)
    (hfind : findIssue remote issueId = some issue)
    (hid : issueId ≠ issue.id) :
    (deleteIssueHandler remote log env1 env2 issueId).fst
      = remote.map (fun i =>
          if i.id == issue.id then { i with archived := true } else i) ∧
    (deleteIssueHandler remote log env1 env2 issueId).fst.length
      = remote.length ∧
    (∃ j ∈ (deleteIssueHandler remote log env1 env2 issueId).fst,
      j.id = issue.id ∧ j.archived = true) ∧
    (deleteIssueHandler remote log env1 env2 issueId).snd.snd
      = { text := "Archived issue " ++ issue.identifier ++ ": \"" ++
            issue.title ++ "\""
          success := true } ∧
    (deleteIssueHandler remote log env1 env2 issueId).snd.fst
      = logPush
          (logPush log (mkActivityItem env1 "get_issue" .issue issueId
            [("title", .str issue.title),
             ("identifier", .str issue.identifier)] true none))
          (mkActivityItem env2 "delete_issue" .issue issue.id
            [("identifier", .str issue.identifier)] true none) ∧
    List.countP
        (fun it => it.resource_type == LinearResourceType.issue &&
          it.resource_id == issue.id)
        [mkActivityItem env1 "get_issue" .issue issueId
          [("title", .str issue.title),
           ("identifier", .str issue.identifier)] true none,
         mkActivityItem env2 "delete_issue" .issue issue.id
          [("identifier", .str issue.identifier)] true none] = 1 := by
  have hred : deleteIssueHandler remote log env1 env2 issueId
      = ((remote.map (fun i =>
            if i.id == issue.id then { i with archived := true } else i)),
         logPush
           (logPush log (mkActivityItem env1 "get_issue" .issue issueId
             [("title", .str issue.title),
              ("identifier", .str issue.identifier)] true none))
           (mkActivityItem env2 "delete_issue" .issue issue.id
             [("identifier", .str issue.identifier)] true none),
         { text := "Archived issue " ++ issue.identifier ++ ": \"" ++
             issue.title ++ "\""
           success := true }) := by
    unfold deleteIssueHandler svcDeleteIssue
    rw [hfind]
    rfl
  refine ⟨by rw [hred], ?_, ?_, by rw [hred], by rw [hred], ?_⟩
  · rw [hred]
    simp
  · rw [hred]
    refine ⟨{ issue with archived := true }, ?_, rfl, rfl⟩
    have hmem : issue ∈ remote := List.mem_of_find?_eq_some hfind
    have := List.mem_map_of_mem
      (fun i => if i.id == issue.id then { i with archived := true } else i)
      hmem
    simpa using this
  · have h1 : ((mkActivityItem env1 "get_issue" .issue issueId
        [("title", .str issue.title),
         ("identifier", .str issue.identifier)] true
        none).resource_id == issue.id) = false := by
      simp [mkActivityItem]
      exact hid
    have h2 : ((mkActivityItem env2 "delete_issue" .issue issue.id
        [("identifier", .str issue.identifier)] true
        none).resource_id == issue.id) = true := by
      simp [mkActivityItem]
    simp [List.countP_cons, mkActivityItem, hid]

theorem delete_issue_archives_witness :
    (deleteIssueHandler
        [{ id := "uuid-1", identifier := "ENG-123", title := "Fix login" }]
        [] ⟨"id1", "t1"⟩ ⟨"id2", "t2"⟩ "ENG-123").fst
      = List.map (fun i =>
          if i.id == "uuid-1" then { i with archived := true } else i)
          [{ id := "uuid-1", identifier := "ENG-123", title := "Fix login" }] :=
  (delete_issue_archives
    [{ id := "uuid-1", identifier := "ENG-123", title := "Fix login" }]
    [] ⟨"id1", "t1"⟩ ⟨"id2", "t2"⟩ "ENG-123"
    { id := "uuid-1", identifier := "ENG-123", title := "Fix login" }
    (by decide) (by decide)).1

/- ### The create-issue team/priority resolution (C4) -/

/-- `String.prototype.toLowerCase` on the character-list view. -/
def strLower (s : String) : String :=
  String.mk (s.toList.map Char.toLower)

/-- The model's JSON result of the create-issue extraction prompt
(`src/actions/createIssue.ts`, lines 13-27). -/
structure CreateIssueParsed where
  title : Option String := none
  description : Option String := none
  teamKey : Option String := none
  priority : Option Nat := none
  assignee : Option String := none
  deriving DecidableEq, Repr

/-- The outcome of the create-issue handler's input resolution: either a
user-facing failure text, or the `LinearIssueInput` carried by the outgoing
remote create call. -/
inductive CreateIssueResolution where
  | failed (text : String)
  | create (input : LinearIssueInput)
  deriving DecidableEq, Repr

/-- The input-resolution logic of `createIssueAction.handler`
(`src/actions/createIssue.ts`, lines 112-183), given the workspace's teams
and users as returned by `getTeams`/`getUsers`: copy title/description/
priority from the parsed response; resolve a mentioned team key
case-insensitively; resolve a mentioned assignee by exact email or
lower-cased name-substring; when no team was resolved, fall back to the
*first* team of `getTeams()` (`issueData.teamId = teams[0].id`, line 149);
fail on a missing title or when no team exists. The configured
`LINEAR_DEFAULT_TEAM_KEY` setting is not read anywhere in this handler. -/
def resolveCreateIssue (teams : List Team) (users : List User)
    (parsed : CreateIssueParsed) : CreateIssueResolution :=
  let teamFromKey : Option String :=
    match parsed.teamKey with
    | some tk =>
      if tk != "" then
        (teams.find? (fun t => strLower t.key == strLower tk)).map Team.id
      else none
    | none => none
  let assigneeId : Option String :=
    match parsed.assignee with
    | some a =>
      if a != "" then
        (users.find? (fun u => u.email == a ||
          hasSub (strLower a).toList (strLower u.name).toList)).map User.id
      else none
    | none => none
  let teamId : Option String :=
    match teamFromKey with
    | some t => some t
    | none => teams.head?.map Team.id
  match parsed.title with
  | none => .failed "Could not determine issue title. Please provide more details."
  | some t =>
    if t == "" then
      .failed "Could not determine issue title. Please provide more details."
    else
      match teamId with
      | none => .failed "No Linear teams found. Please ensure at least one team exists in your Linear workspace."
      | some tid =>
        .create { title := t, description := parsed.description,
                  teamId := tid, priority := parsed.priority,
                  assigneeId := assigneeId }

/-- The two-team workspace of the failing input: the first team returned by
`getTeams()` is `PROD`; a team with the configured default key `ENG`
exists but is not first. -/
def teamProd : Team := { id := "team-prod", key := "PROD", name := "Production" }

/-- The `ENG` team of the failing input. -/
def teamEng : Team := { id := "team-eng", key := "ENG", name := "Engineering" }

/-- **C4 (code bug).** The claim (and the repository README's "Default Team
Behavior" section) says a create-issue request naming no team, with default
team `ENG` configured, sends a create call whose `teamId` is resolved from
the configured `ENG` team and whose priority defaults to 3 (Normal). The
handler instead never reads `LINEAR_DEFAULT_TEAM_KEY`: it falls back to the
*first* team returned by `getTeams()` — here `PROD`, id `team-prod`, not
the `ENG` team's id `team-eng` — and passes the priority through
unchanged, so an unstated priority goes out as absent rather than 3. The
`create_issue` activity item itself (one per call, `success = true`) is
covered by the service-layer theorem. -/
theorem create_issue_first_team_not_default :
    resolveCreateIssue [teamProd, teamEng] []
        { title := some "Fix login button not working on mobile devices" }
      = .create { title := "Fix login button not working on mobile devices",
                  description := none, teamId := "team-prod",
                  priority := none, assigneeId := none } ∧
    (([teamProd, teamEng].find? (fun t => strLower t.key == strLower "ENG")).map
        Team.id) = some "team-eng" ∧
    "team-prod" ≠ "team-eng" := by
  refine ⟨by decide, by decide, by decide⟩

end PluginLinear
